import Mathlib

set_option autoImplicit false

/-!
Verification of the toy MySQL client's protocol layer.

The Rust sources are embedded shallowly:

* Byte buffers (`Vec<u8>`, `&[u8]`) are `List Nat` whose elements are bytes.
* A Rust `String` is kept as its UTF-8 bytes (`List Nat`); `String::from_utf8`
  validates and returns the same bytes, so `val.len()` is the list length.
* Fallible code (`anyhow::Result`, `bail!`, `?`) yields `Outcome.error msg`
  with the message rendered to ASCII bytes; out-of-bounds indexing or slicing
  (`pkt[i]`, `pkt[a..b]`), which panics in Rust in every build profile, yields
  `Outcome.panic`.
* Machine-integer arithmetic is `Nat` with an explicit `% 2 ^ w` wherever the
  Rust operation can overflow its type (u8 arithmetic wraps modulo 256).
-/

/-- Result of running a piece of the client's Rust code: a value, a
recoverable `anyhow::Error` (carried as its rendered message bytes), or a
panic from a failed bounds check. -/
inductive Outcome (α : Type) where
  | ok : α → Outcome α
  | error : List Nat → Outcome α
  | panic : Outcome α
deriving DecidableEq, Repr

/-- Sequencing of fallible Rust statements: errors and panics propagate. -/
def Outcome.bind {α β : Type} : Outcome α → (α → Outcome β) → Outcome β
  | .ok a, f => f a
  | .error e, _ => .error e
  | .panic, _ => .panic

/-- `true` exactly on a recoverable (`anyhow`) error outcome. -/
def Outcome.isError {α : Type} : Outcome α → Bool
  | .error _ => true
  | _ => false

/-- `true` exactly on a successful outcome. -/
def Outcome.isOk {α : Type} : Outcome α → Bool
  | .ok _ => true
  | _ => false

/-- Extract the value of a successful outcome, with a default otherwise. -/
def Outcome.getOkD {α : Type} : Outcome α → α → α
  | .ok a, _ => a
  | _, d => d

@[simp] theorem Outcome.bind_ok {α β : Type} (a : α) (f : α → Outcome β) :
    Outcome.bind (.ok a) f = f a := rfl

@[simp] theorem Outcome.bind_error {α β : Type} (e : List Nat) (f : α → Outcome β) :
    Outcome.bind (.error e) f = .error e := rfl

@[simp] theorem Outcome.bind_panic {α β : Type} (f : α → Outcome β) :
    Outcome.bind (.panic) f = .panic := rfl

/-- Rust's checked indexing `pkt[i]` on a byte buffer: panics out of bounds. -/
def idx (pkt : List Nat) (i : Nat) : Outcome Nat :=
  if i < pkt.length then .ok (pkt.getD i 0) else .panic

/-- Rust's range slicing `pkt[a..b]`: panics unless `a ≤ b ∧ b ≤ pkt.length`. -/
def rustSlice (pkt : List Nat) (a b : Nat) : Outcome (List Nat) :=
  if a ≤ b ∧ b ≤ pkt.length then .ok ((pkt.drop a).take (b - a)) else .panic

/-- ASCII literal rendered to bytes (all literals used here are ASCII). -/
def asciiBytes (s : String) : List Nat := s.data.map Char.toNat

/-- Digit-accumulating helper for `natDecimal`; the fuel argument only
bounds the recursion depth (`n` itself always suffices). -/
def natDecimalAux : Nat → Nat → List Nat
  | 0, _ => []
  | fuel + 1, n => if n = 0 then [] else natDecimalAux fuel (n / 10) ++ [48 + n % 10]

/-- Decimal rendering of a `Nat` to ASCII digit bytes, as Rust `Display`. -/
def natDecimal (n : Nat) : List Nat :=
  if n = 0 then [48] else natDecimalAux n n

/-- Is `c` a UTF-8 continuation byte (0x80..0xBF)? -/
def isCont (c : Nat) : Bool := 0x80 ≤ c && c ≤ 0xBF

/-- UTF-8 validity of a byte sequence, as enforced by Rust's
`String::from_utf8` (overlong forms and surrogates rejected). -/
def validUtf8 : List Nat → Bool
  | [] => true
  | b :: rest =>
    if b ≤ 0x7F then validUtf8 rest
    else if b < 0xC2 then false
    else if b ≤ 0xDF then
      match rest with
      | c :: r => isCont c && validUtf8 r
      | [] => false
    else if b ≤ 0xEF then
      match rest with
      | c :: d :: r =>
        (if b = 0xE0 then decide (0xA0 ≤ c && c ≤ 0xBF)
         else if b = 0xED then decide (0x80 ≤ c && c ≤ 0x9F)
         else isCont c) && isCont d && validUtf8 r
      | _ => false
    else if b ≤ 0xF4 then
      match rest with
      | c :: d :: e :: r =>
        (if b = 0xF0 then decide (0x90 ≤ c && c ≤ 0xBF)
         else if b = 0xF4 then decide (0x80 ≤ c && c ≤ 0x8F)
         else isCont c) && isCont d && isCont e && validUtf8 r
      | _ => false
    else false

/-- Rust `String::from_utf8`: in this model a Rust `String` is its UTF-8
bytes, so validation returns the same bytes or the recoverable
`FromUtf8Error` surfaced through `?`. -/
def string_from_utf8 (bs : List Nat) : Outcome (List Nat) :=
  if validUtf8 bs then .ok bs else .error (asciiBytes "invalid utf-8")

/-- `decode_lenenc_string` from `src/utils.rs`: reads the 1-byte length
`head` at `pos`, slices the next `head` bytes, validates them as UTF-8 and
returns the string together with `val.len() + 1` consumed bytes. -/
def decode_lenenc_string (pkt : List Nat) (pos : Nat) : Outcome (List Nat × Nat) :=
  Outcome.bind (idx pkt pos) fun head =>
  Outcome.bind (rustSlice pkt (pos + 1) (pos + 1 + head)) fun bytes =>
  Outcome.bind (string_from_utf8 bytes) fun val =>
  .ok (val, val.length + 1)

/-- `decode_lenenc_integer` from `src/utils.rs`: discriminant byte `head`
selects a 1-, 2-, 3- or 8-byte little-endian integer; any other discriminant
is the `bail!("unknown byte: {}")` error. -/
def decode_lenenc_integer (pkt : List Nat) (pos : Nat) : Outcome (Nat × Nat) :=
  Outcome.bind (idx pkt pos) fun head =>
  if head ≤ 0xfa then
    .ok (head, 1)
  else if head = 0xfc then
    Outcome.bind (idx pkt (pos + 1)) fun b0 =>
    Outcome.bind (idx pkt (pos + 2)) fun b1 =>
    .ok (b0 + 256 * b1, 3)
  else if head = 0xfd then
    Outcome.bind (idx pkt (pos + 1)) fun b0 =>
    Outcome.bind (idx pkt (pos + 2)) fun b1 =>
    Outcome.bind (idx pkt (pos + 3)) fun b2 =>
    .ok (b0 + 256 * b1 + 65536 * b2, 4)
  else if head = 0xfe then
    Outcome.bind (idx pkt (pos + 1)) fun b0 =>
    Outcome.bind (idx pkt (pos + 2)) fun b1 =>
    Outcome.bind (idx pkt (pos + 3)) fun b2 =>
    Outcome.bind (idx pkt (pos + 4)) fun b3 =>
    Outcome.bind (idx pkt (pos + 5)) fun b4 =>
    Outcome.bind (idx pkt (pos + 6)) fun b5 =>
    Outcome.bind (idx pkt (pos + 7)) fun b6 =>
    Outcome.bind (idx pkt (pos + 8)) fun b7 =>
    .ok (b0 + 256 * b1 + 65536 * b2 + 16777216 * b3 +
         4294967296 * b4 + 1099511627776 * b5 +
         281474976710656 * b6 + 72057594037927936 * b7, 9)
  else
    .error (asciiBytes "unknown byte: " ++ natDecimal head)

theorem Outcome.bind_eq_ok {α β : Type} {x : Outcome α} {f : α → Outcome β} {v : β}
    (h : Outcome.bind x f = .ok v) : ∃ a, x = .ok a ∧ f a = .ok v := by
  cases x with
  | ok a => exact ⟨a, rfl, h⟩
  | error e => exact Outcome.noConfusion h
  | panic => exact Outcome.noConfusion h

theorem idx_eq_ok {pkt : List Nat} {i b : Nat} (h : idx pkt i = .ok b) :
    i < pkt.length ∧ pkt.getD i 0 = b := by
  unfold idx at h
  split at h
  · next hi => exact ⟨hi, by injection h⟩
  · exact Outcome.noConfusion h

theorem idx_ok_of_lt (pkt : List Nat) (i : Nat) (h : i < pkt.length) :
    idx pkt i = .ok (pkt.getD i 0) := by
  unfold idx
  rw [if_pos h]

theorem rustSlice_eq_ok {pkt bs : List Nat} {a b : Nat}
    (h : rustSlice pkt a b = .ok bs) :
    a ≤ b ∧ b ≤ pkt.length ∧ bs = (pkt.drop a).take (b - a) := by
  unfold rustSlice at h
  split at h
  · next hc => exact ⟨hc.1, hc.2, by injection h with h; rw [h]⟩
  · exact Outcome.noConfusion h

theorem take_drop_append (l ext : List Nat) (m n : Nat) (h : m + n ≤ l.length) :
    ((l ++ ext).drop m).take n = (l.drop m).take n := by
  rw [List.drop_append_eq_append_drop, List.take_append_eq_append_take]
  have h1 : m - l.length = 0 := by omega
  have h2 : n - (l.drop m).length = 0 := by
    rw [List.length_drop]; omega
  rw [h1, h2, List.drop_zero, List.take_zero, List.append_nil]

theorem idx_append (pkt ext : List Nat) (i : Nat) (h : i < pkt.length) :
    idx (pkt ++ ext) i = idx pkt i := by
  unfold idx
  rw [if_pos h, if_pos (by rw [List.length_append]; omega),
    List.getD_append _ _ _ _ h]

theorem rustSlice_append (pkt ext : List Nat) (a b : Nat) (hab : a ≤ b)
    (h : b ≤ pkt.length) :
    rustSlice (pkt ++ ext) a b = rustSlice pkt a b := by
  unfold rustSlice
  rw [if_pos (show a ≤ b ∧ b ≤ (pkt ++ ext).length from
        ⟨hab, by rw [List.length_append]; omega⟩),
    if_pos (show a ≤ b ∧ b ≤ pkt.length from ⟨hab, h⟩),
    take_drop_append _ _ _ _ (by omega)]






/-- Helper: a successful `decode_lenenc_string` consumes at least one byte
(it returns `val.len() + 1`). -/
theorem decode_lenenc_string_consumed_pos {pkt : List Nat} {pos : Nat}
    {s : List Nat} {c : Nat} (h : decode_lenenc_string pkt pos = .ok (s, c)) :
    1 ≤ c := by
  unfold decode_lenenc_string at h
  obtain ⟨head, _, h⟩ := Outcome.bind_eq_ok h
  obtain ⟨bytes, _, h⟩ := Outcome.bind_eq_ok h
  obtain ⟨val, _, h⟩ := Outcome.bind_eq_ok h
  injection h with h
  have h2 := congrArg Prod.snd h
  simp only at h2
  omega

/-- The scanning loop of `ResultsetRow::decode` from `src/command.rs`:
starting at `pos`, repeatedly decode length-encoded strings until the end of
the payload; terminates because each successful decode consumes at least one
byte. -/
def resultsetRowLoop (pkt : List Nat) (pos : Nat) (buf : List (List Nat)) :
    Outcome (List (List Nat)) :=
  if hlt : pos < pkt.length then
    match hdec : decode_lenenc_string pkt pos with
    | .ok (s, c) => resultsetRowLoop pkt (pos + c) (buf ++ [s])
    | .error e => .error e
    | .panic => .panic
  else .ok buf
termination_by pkt.length - pos
decreasing_by
  have := decode_lenenc_string_consumed_pos hdec
  omega

/-- `ResultsetRow::decode` from `src/command.rs`: a result row is the list
of length-encoded strings filling the whole payload. -/
def ResultsetRow.decode (pkt : List Nat) : Outcome (List (List Nat)) :=
  resultsetRowLoop pkt 0 []

theorem resultsetRowLoop_stop {pkt : List Nat} {pos : Nat}
    {buf : List (List Nat)} (h : ¬ pos < pkt.length) :
    resultsetRowLoop pkt pos buf = .ok buf := by
  unfold resultsetRowLoop
  rw [dif_neg h]

theorem resultsetRowLoop_step {pkt : List Nat} {pos : Nat}
    {buf : List (List Nat)} {s : List Nat} {c : Nat} (hlt : pos < pkt.length)
    (hdec : decode_lenenc_string pkt pos = .ok (s, c)) :
    resultsetRowLoop pkt pos buf = resultsetRowLoop pkt (pos + c) (buf ++ [s]) := by
  conv_lhs => rw [resultsetRowLoop.eq_def]
  rw [dif_pos hlt]
  split
  · next s' c' heq =>
    rw [hdec] at heq
    injection heq with heq
    injection heq with heq1 heq2
    rw [heq1, heq2]
  · next e heq => rw [hdec] at heq; exact Outcome.noConfusion heq
  · next heq => rw [hdec] at heq; exact Outcome.noConfusion heq

theorem resultsetRowLoop_error {pkt : List Nat} {pos : Nat}
    {buf : List (List Nat)} {e : List Nat} (hlt : pos < pkt.length)
    (hdec : decode_lenenc_string pkt pos = .error e) :
    resultsetRowLoop pkt pos buf = .error e := by
  unfold resultsetRowLoop
  rw [dif_pos hlt]
  split
  · next s' c' heq => rw [hdec] at heq; exact Outcome.noConfusion heq
  · next e' heq =>
    rw [hdec] at heq
    injection heq with heq
    rw [heq]
  · next heq => rw [hdec] at heq; exact Outcome.noConfusion heq

theorem resultsetRowLoop_panic {pkt : List Nat} {pos : Nat}
    {buf : List (List Nat)} (hlt : pos < pkt.length)
    (hdec : decode_lenenc_string pkt pos = .panic) :
    resultsetRowLoop pkt pos buf = .panic := by
  unfold resultsetRowLoop
  rw [dif_pos hlt]
  split
  · next s' c' heq => rw [hdec] at heq; exact Outcome.noConfusion heq
  · next e' heq => rw [hdec] at heq; exact Outcome.noConfusion heq
  · next heq => rfl

/-- Fuel-indexed version of the `ResultsetRow::decode` scanning loop:
`none` means the iteration budget ran out before the loop exited. -/
def resultsetRowLoopFuel :
    Nat → List Nat → Nat → List (List Nat) → Option (Outcome (List (List Nat)))
  | 0, pkt, pos, buf => if pos < pkt.length then none else some (.ok buf)
  | fuel + 1, pkt, pos, buf =>
    if pos < pkt.length then
      match decode_lenenc_string pkt pos with
      | .ok (s, c) => resultsetRowLoopFuel fuel pkt (pos + c) (buf ++ [s])
      | .error e => some (.error e)
      | .panic => some (.panic)
    else some (.ok buf)

/-- C1: `decode_lenenc_integer` returns `(n, 1)` for a discriminant byte `n`
in `0x00..0xFA`; for `0xFC`, the following 2 bytes as a little-endian
integer with 3 consumed; for `0xFD`, the following 3 bytes (top byte zero)
with 4 consumed; for `0xFE`, the following 8 bytes with 9 consumed; and for
the discriminant `0xFB`, the decode error. -/
theorem claim_C1 (pkt : List Nat) (pos n : Nat)
    (hpos : pos < pkt.length) (hn : pkt.getD pos 0 = n) :
    (n ≤ 0xfa → decode_lenenc_integer pkt pos = .ok (n, 1)) ∧
    (n = 0xfc → pos + 3 ≤ pkt.length →
      decode_lenenc_integer pkt pos =
        .ok (pkt.getD (pos + 1) 0 + 256 * pkt.getD (pos + 2) 0, 3)) ∧
    (n = 0xfd → pos + 4 ≤ pkt.length →
      decode_lenenc_integer pkt pos =
        .ok (pkt.getD (pos + 1) 0 + 256 * pkt.getD (pos + 2) 0 +
             65536 * pkt.getD (pos + 3) 0, 4)) ∧
    (n = 0xfe → pos + 9 ≤ pkt.length →
      decode_lenenc_integer pkt pos =
        .ok (pkt.getD (pos + 1) 0 + 256 * pkt.getD (pos + 2) 0 +
             65536 * pkt.getD (pos + 3) 0 + 16777216 * pkt.getD (pos + 4) 0 +
             4294967296 * pkt.getD (pos + 5) 0 +
             1099511627776 * pkt.getD (pos + 6) 0 +
             281474976710656 * pkt.getD (pos + 7) 0 +
             72057594037927936 * pkt.getD (pos + 8) 0, 9)) ∧
    (n = 0xfb →
      decode_lenenc_integer pkt pos = .error (asciiBytes "unknown byte: 251")) := by
  have hidx : idx pkt pos = .ok n := by rw [idx_ok_of_lt pkt pos hpos, hn]
  refine ⟨?_, ?_, ?_, ?_, ?_⟩
  · intro h1
    unfold decode_lenenc_integer
    rw [hidx, Outcome.bind_ok, if_pos h1]
  · intro h1 h2
    subst h1
    have e1 := idx_ok_of_lt pkt (pos + 1) (by omega)
    have e2 := idx_ok_of_lt pkt (pos + 2) (by omega)
    simp [decode_lenenc_integer, hidx, e1, e2]
  · intro h1 h2
    subst h1
    have e1 := idx_ok_of_lt pkt (pos + 1) (by omega)
    have e2 := idx_ok_of_lt pkt (pos + 2) (by omega)
    have e3 := idx_ok_of_lt pkt (pos + 3) (by omega)
    simp [decode_lenenc_integer, hidx, e1, e2, e3]
  · intro h1 h2
    subst h1
    have e1 := idx_ok_of_lt pkt (pos + 1) (by omega)
    have e2 := idx_ok_of_lt pkt (pos + 2) (by omega)
    have e3 := idx_ok_of_lt pkt (pos + 3) (by omega)
    have e4 := idx_ok_of_lt pkt (pos + 4) (by omega)
    have e5 := idx_ok_of_lt pkt (pos + 5) (by omega)
    have e6 := idx_ok_of_lt pkt (pos + 6) (by omega)
    have e7 := idx_ok_of_lt pkt (pos + 7) (by omega)
    have e8 := idx_ok_of_lt pkt (pos + 8) (by omega)
    simp [decode_lenenc_integer, hidx, e1, e2, e3, e4, e5, e6, e7, e8]
  · intro h1
    subst h1
    simp only [decode_lenenc_integer, hidx, Outcome.bind_ok]
    norm_num
    decide

/-- Witness for C1 at concrete inputs covering all five discriminant cases. -/
theorem claim_C1_witness :
    decode_lenenc_integer [7] 0 = .ok (7, 1) ∧
    decode_lenenc_integer [0xfc, 1, 2] 0 = .ok (513, 3) ∧
    decode_lenenc_integer [0xfd, 1, 2, 3] 0 = .ok (197121, 4) ∧
    decode_lenenc_integer [0xfe, 1, 0, 0, 0, 0, 0, 0, 2] 0 =
      .ok (144115188075855873, 9) ∧
    decode_lenenc_integer [0xfb] 0 = .error (asciiBytes "unknown byte: 251") :=
  ⟨(claim_C1 [7] 0 7 (by decide) (by decide)).1 (by decide),
   (claim_C1 [0xfc, 1, 2] 0 0xfc (by decide) (by decide)).2.1 rfl (by decide),
   (claim_C1 [0xfd, 1, 2, 3] 0 0xfd (by decide) (by decide)).2.2.1 rfl (by decide),
   (claim_C1 [0xfe, 1, 0, 0, 0, 0, 0, 0, 2] 0 0xfe (by decide)
     (by decide)).2.2.2.1 rfl (by decide),
   (claim_C1 [0xfb] 0 0xfb (by decide) (by decide)).2.2.2.2 rfl⟩

/-- C2: for every UTF-8-valid byte string `s` of length at most 250,
`decode_lenenc_string` at offset 0 on `[len(s)] ++ s` returns
`(s, len(s) + 1)`; and whenever a buffer's length-prefixed bytes are not
valid UTF-8, it returns the decode error. -/
theorem claim_C2 (s : List Nat) (hv : validUtf8 s = true) (hlen : s.length ≤ 250) :
    decode_lenenc_string (s.length :: s) 0 = .ok (s, s.length + 1) ∧
    (∀ (pkt : List Nat) (pos : Nat), pos < pkt.length →
      pos + 1 + pkt.getD pos 0 ≤ pkt.length →
      validUtf8 ((pkt.drop (pos + 1)).take (pkt.getD pos 0)) = false →
      decode_lenenc_string pkt pos = .error (asciiBytes "invalid utf-8")) := by
  constructor
  · have hidx : idx (s.length :: s) 0 = .ok s.length := by
      rw [idx_ok_of_lt _ 0 (by simp)]
      rfl
    have hsl : rustSlice (s.length :: s) 1 (1 + s.length) = .ok s := by
      unfold rustSlice
      rw [if_pos (show 1 ≤ 1 + s.length ∧ 1 + s.length ≤ (s.length :: s).length from
            ⟨by omega, by simp; omega⟩)]
      rw [show (s.length :: s).drop 1 = s from rfl,
        show 1 + s.length - 1 = s.length by omega, List.take_length]
    unfold decode_lenenc_string
    rw [hidx, Outcome.bind_ok]
    rw [show (0 : Nat) + 1 = 1 from rfl, hsl, Outcome.bind_ok]
    unfold string_from_utf8
    rw [if_pos hv, Outcome.bind_ok]
  · intro pkt pos hp hb hinv
    have hidx := idx_ok_of_lt pkt pos hp
    have hsl : rustSlice pkt (pos + 1) (pos + 1 + pkt.getD pos 0) =
        .ok ((pkt.drop (pos + 1)).take (pkt.getD pos 0)) := by
      unfold rustSlice
      rw [if_pos (show pos + 1 ≤ pos + 1 + pkt.getD pos 0 ∧
            pos + 1 + pkt.getD pos 0 ≤ pkt.length from ⟨by omega, hb⟩),
        show pos + 1 + pkt.getD pos 0 - (pos + 1) = pkt.getD pos 0 by omega]
    unfold decode_lenenc_string
    rw [hidx, Outcome.bind_ok, hsl, Outcome.bind_ok]
    unfold string_from_utf8
    rw [hinv]
    simp

/-- Witness for C2: the valid string `"A"` round-trips, and the
length-prefixed invalid byte `0xFF` yields the decode error. -/
theorem claim_C2_witness :
    decode_lenenc_string [1, 65] 0 = .ok ([65], 2) ∧
    decode_lenenc_string [1, 255] 0 = .error (asciiBytes "invalid utf-8") :=
  ⟨(claim_C2 [65] (by decide) (by decide)).1,
   (claim_C2 [65] (by decide) (by decide)).2 [1, 255] 0 (by decide) (by decide)
     (by decide)⟩

/-- C8 counterexample: on the truncated buffer `[5]` (length prefix 5 with
no following bytes) `decode_lenenc_string` panics — the outcome is not a
recoverable decode error, contrary to the claim. -/
theorem claim_C8_counterexample :
    decode_lenenc_string [5] 0 = .panic ∧
    Outcome.isError (decode_lenenc_string [5] 0) = false := by decide

/-- C8 (amended): both primitive decoders read only within the supplied
buffer — a successful decode is unchanged by appending further bytes — and
on a truncated buffer (length prefix announcing more bytes than remain)
`decode_lenenc_string` panics via Rust's fatal bounds check rather than
returning a recoverable decode error. -/
theorem claim_C8 :
    (∀ (pkt ext : List Nat) (pos : Nat) (v : List Nat) (c : Nat),
      decode_lenenc_string pkt pos = .ok (v, c) →
      decode_lenenc_string (pkt ++ ext) pos = .ok (v, c)) ∧
    (∀ (pkt ext : List Nat) (pos v c : Nat),
      decode_lenenc_integer pkt pos = .ok (v, c) →
      decode_lenenc_integer (pkt ++ ext) pos = .ok (v, c)) ∧
    (∀ (pkt : List Nat) (pos : Nat), pos < pkt.length →
      pkt.length < pos + 1 + pkt.getD pos 0 →
      decode_lenenc_string pkt pos = .panic) := by
  refine ⟨?_, ?_, ?_⟩
  · intro pkt ext pos v c h
    unfold decode_lenenc_string at h ⊢
    obtain ⟨head, hidx, h⟩ := Outcome.bind_eq_ok h
    obtain ⟨bytes, hsl, h⟩ := Outcome.bind_eq_ok h
    obtain ⟨val, hutf, h⟩ := Outcome.bind_eq_ok h
    obtain ⟨hi, -⟩ := idx_eq_ok hidx
    obtain ⟨hab, hbl, -⟩ := rustSlice_eq_ok hsl
    rw [idx_append _ _ _ hi, hidx, Outcome.bind_ok,
      rustSlice_append _ _ _ _ hab hbl, hsl, Outcome.bind_ok, hutf,
      Outcome.bind_ok, h]
  · intro pkt ext pos v c h
    unfold decode_lenenc_integer at h ⊢
    obtain ⟨head, hidx, h⟩ := Outcome.bind_eq_ok h
    obtain ⟨hi, -⟩ := idx_eq_ok hidx
    rw [idx_append _ _ _ hi, hidx, Outcome.bind_ok]
    by_cases h1 : head ≤ 0xfa
    · rw [if_pos h1] at h ⊢
      exact h
    · rw [if_neg h1] at h ⊢
      by_cases h2 : head = 0xfc
      · rw [if_pos h2] at h ⊢
        obtain ⟨b0, e0, h⟩ := Outcome.bind_eq_ok h
        obtain ⟨b1, e1, h⟩ := Outcome.bind_eq_ok h
        rw [idx_append _ _ _ (idx_eq_ok e0).1, e0, Outcome.bind_ok,
          idx_append _ _ _ (idx_eq_ok e1).1, e1, Outcome.bind_ok, h]
      · rw [if_neg h2] at h ⊢
        by_cases h3 : head = 0xfd
        · rw [if_pos h3] at h ⊢
          obtain ⟨b0, e0, h⟩ := Outcome.bind_eq_ok h
          obtain ⟨b1, e1, h⟩ := Outcome.bind_eq_ok h
          obtain ⟨b2, e2, h⟩ := Outcome.bind_eq_ok h
          rw [idx_append _ _ _ (idx_eq_ok e0).1, e0, Outcome.bind_ok,
            idx_append _ _ _ (idx_eq_ok e1).1, e1, Outcome.bind_ok,
            idx_append _ _ _ (idx_eq_ok e2).1, e2, Outcome.bind_ok, h]
        · rw [if_neg h3] at h ⊢
          by_cases h4 : head = 0xfe
          · rw [if_pos h4] at h ⊢
            obtain ⟨b0, e0, h⟩ := Outcome.bind_eq_ok h
            obtain ⟨b1, e1, h⟩ := Outcome.bind_eq_ok h
            obtain ⟨b2, e2, h⟩ := Outcome.bind_eq_ok h
            obtain ⟨b3, e3, h⟩ := Outcome.bind_eq_ok h
            obtain ⟨b4, e4, h⟩ := Outcome.bind_eq_ok h
            obtain ⟨b5, e5, h⟩ := Outcome.bind_eq_ok h
            obtain ⟨b6, e6, h⟩ := Outcome.bind_eq_ok h
            obtain ⟨b7, e7, h⟩ := Outcome.bind_eq_ok h
            rw [idx_append _ _ _ (idx_eq_ok e0).1, e0, Outcome.bind_ok,
              idx_append _ _ _ (idx_eq_ok e1).1, e1, Outcome.bind_ok,
              idx_append _ _ _ (idx_eq_ok e2).1, e2, Outcome.bind_ok,
              idx_append _ _ _ (idx_eq_ok e3).1, e3, Outcome.bind_ok,
              idx_append _ _ _ (idx_eq_ok e4).1, e4, Outcome.bind_ok,
              idx_append _ _ _ (idx_eq_ok e5).1, e5, Outcome.bind_ok,
              idx_append _ _ _ (idx_eq_ok e6).1, e6, Outcome.bind_ok,
              idx_append _ _ _ (idx_eq_ok e7).1, e7, Outcome.bind_ok, h]
          · rw [if_neg h4] at h ⊢
            exact h
  · intro pkt pos hp hb
    unfold decode_lenenc_string
    rw [idx_ok_of_lt _ _ hp, Outcome.bind_ok]
    unfold rustSlice
    rw [if_neg (show ¬ (pos + 1 ≤ pos + 1 + pkt.getD pos 0 ∧
          pos + 1 + pkt.getD pos 0 ≤ pkt.length) from fun hc => by omega)]
    rfl

/-- Witness for C8 at concrete inputs: append-stability of both decoders
and the panic on a truncated string buffer. -/
theorem claim_C8_witness :
    decode_lenenc_string [1, 65, 9, 9] 0 = .ok ([65], 2) ∧
    decode_lenenc_integer [0xfc, 1, 2, 9] 0 = .ok (513, 3) ∧
    decode_lenenc_string [2, 65] 0 = .panic :=
  ⟨claim_C8.1 [1, 65] [9, 9] 0 [65] 2 (by decide),
   claim_C8.2.1 [0xfc, 1, 2] [9] 0 513 3 (by decide),
   claim_C8.2.2 [2, 65] 0 (by decide) (by decide)⟩

/-- C9: `ResultsetRow::decode` terminates — every successful
length-encoded-string decode consumes at least one byte, so the scanning
position strictly increases, and an unbounded loop given any fuel of at
least `pkt.length - pos` iterations reaches the total function's answer. -/
theorem claim_C9 :
    (∀ (pkt : List Nat) (pos : Nat) (s : List Nat) (c : Nat),
      decode_lenenc_string pkt pos = .ok (s, c) → 1 ≤ c) ∧
    (∀ (fuel : Nat) (pkt : List Nat) (pos : Nat) (buf : List (List Nat)),
      pkt.length - pos ≤ fuel →
      resultsetRowLoopFuel fuel pkt pos buf = some (resultsetRowLoop pkt pos buf)) := by
  refine ⟨fun pkt pos s c h => decode_lenenc_string_consumed_pos h, ?_⟩
  intro fuel
  induction fuel with
  | zero =>
    intro pkt pos buf hf
    have hge : ¬ pos < pkt.length := by omega
    rw [resultsetRowLoop_stop hge]
    simp only [resultsetRowLoopFuel, if_neg hge]
  | succ fuel ih =>
    intro pkt pos buf hf
    by_cases hlt : pos < pkt.length
    · cases hdec : decode_lenenc_string pkt pos with
      | ok sc =>
        obtain ⟨s, c⟩ := sc
        have hc := decode_lenenc_string_consumed_pos hdec
        rw [resultsetRowLoop_step hlt hdec]
        simp only [resultsetRowLoopFuel, if_pos hlt, hdec]
        exact ih pkt (pos + c) (buf ++ [s]) (by omega)
      | error e =>
        rw [resultsetRowLoop_error hlt hdec]
        simp only [resultsetRowLoopFuel, if_pos hlt, hdec]
      | panic =>
        rw [resultsetRowLoop_panic hlt hdec]
        simp only [resultsetRowLoopFuel, if_pos hlt, hdec]
    · rw [resultsetRowLoop_stop hlt]
      simp only [resultsetRowLoopFuel, if_neg hlt]

/-- Witness for C9: a two-column payload is fully scanned, and the fuelled
loop agrees with the total decoder using `pkt.length` fuel. -/
theorem claim_C9_witness :
    (1 : Nat) ≤ 2 ∧
    resultsetRowLoopFuel 4 [1, 65, 1, 66] 0 [] =
      some (resultsetRowLoop [1, 65, 1, 66] 0 []) :=
  ⟨claim_C9.1 [1, 65, 1, 66] 0 [65] 2 (by decide),
   claim_C9.2 4 [1, 65, 1, 66] 0 [] (by decide)⟩

/-! ### SHA-1 (the `sha1` crate used by `HandshakeResponse41::new`)

Executable SHA-1 over byte lists; words are `Nat` kept below `2 ^ 32` by
explicit reduction. Incremental `update ... finalize` hashing in the Rust
code is modelled as hashing the concatenation of the updates. -/

/-- Reduce modulo `2 ^ 32` (u32 wrap-around). -/
def w32 (n : Nat) : Nat := n % 4294967296

def rotl (s x : Nat) : Nat := w32 (x * 2 ^ s + x / 2 ^ (32 - s))

def be64 (n : Nat) : List Nat :=
  [n / 2 ^ 56 % 256, n / 2 ^ 48 % 256, n / 2 ^ 40 % 256, n / 2 ^ 32 % 256,
   n / 2 ^ 24 % 256, n / 2 ^ 16 % 256, n / 2 ^ 8 % 256, n % 256]

def be32 (n : Nat) : List Nat :=
  [n / 2 ^ 24 % 256, n / 2 ^ 16 % 256, n / 2 ^ 8 % 256, n % 256]

def sha1pad (msg : List Nat) : List Nat :=
  msg ++ [0x80] ++ List.replicate ((55 + 64 - msg.length % 64) % 64) 0 ++
    be64 (8 * msg.length)

def chunks64Aux : Nat → List Nat → List (List Nat)
  | 0, _ => []
  | fuel + 1, l => if l = [] then [] else l.take 64 :: chunks64Aux fuel (l.drop 64)

def chunks64 (l : List Nat) : List (List Nat) := chunks64Aux l.length l

def beWord (b0 b1 b2 b3 : Nat) : Nat := ((b0 * 256 + b1) * 256 + b2) * 256 + b3

def chunkWords (c : List Nat) (i : Nat) : Nat :=
  beWord (c.getD (4 * i) 0) (c.getD (4 * i + 1) 0) (c.getD (4 * i + 2) 0)
    (c.getD (4 * i + 3) 0)

def sha1Extend (ws : List Nat) : List Nat :=
  (List.range 64).foldl (fun acc _ =>
    acc ++ [rotl 1 (Nat.xor
      (Nat.xor (acc.getD (acc.length - 3) 0) (acc.getD (acc.length - 8) 0))
      (Nat.xor (acc.getD (acc.length - 14) 0) (acc.getD (acc.length - 16) 0)))]) ws

def sha1F (i b c d : Nat) : Nat :=
  if i < 20 then Nat.lor (Nat.land b c) (Nat.land (4294967295 - b) d)
  else if i < 40 then Nat.xor (Nat.xor b c) d
  else if i < 60 then Nat.lor (Nat.lor (Nat.land b c) (Nat.land b d)) (Nat.land c d)
  else Nat.xor (Nat.xor b c) d

def sha1K (i : Nat) : Nat :=
  if i < 20 then 0x5A827999 else if i < 40 then 0x6ED9EBA1
  else if i < 60 then 0x8F1BBCDC else 0xCA62C1D6

def sha1Round (ws : List Nat) (st : Nat × Nat × Nat × Nat × Nat) (i : Nat) :
    Nat × Nat × Nat × Nat × Nat :=
  (w32 (rotl 5 st.1 + sha1F i st.2.1 st.2.2.1 st.2.2.2.1 + st.2.2.2.2 +
     sha1K i + ws.getD i 0),
   st.1, rotl 30 st.2.1, st.2.2.1, st.2.2.2.1)

def sha1Chunk (h : Nat × Nat × Nat × Nat × Nat) (chunk : List Nat) :
    Nat × Nat × Nat × Nat × Nat :=
  let ws := sha1Extend ((List.range 16).map (chunkWords chunk))
  let s := (List.range 80).foldl (sha1Round ws) h
  (w32 (h.1 + s.1), w32 (h.2.1 + s.2.1), w32 (h.2.2.1 + s.2.2.1),
   w32 (h.2.2.2.1 + s.2.2.2.1), w32 (h.2.2.2.2 + s.2.2.2.2))

def sha1 (msg : List Nat) : List Nat :=
  let h := (chunks64 (sha1pad msg)).foldl sha1Chunk
    (0x67452301, 0xEFCDAB89, 0x98BADCFE, 0x10325476, 0xC3D2E1F0)
  be32 h.1 ++ be32 h.2.1 ++ be32 h.2.2.1 ++ be32 h.2.2.2.1 ++ be32 h.2.2.2.2

-- sha1("abc") = a9993e36 4706816a ba3e2571 7850c26c 9cd0d89d

/-- `HandshakeResponse41` from `src/handshake.rs` (same struct in
`src/protocol.rs`); strings are carried as their UTF-8 bytes. -/
structure HandshakeResponse41 where
  client_flag : Nat
  max_packet_size : Nat
  character_set : Nat
  filler : List Nat
  username : List Nat
  auth_response : List Nat
  database : List Nat
  client_plugin_name : List Nat
deriving DecidableEq, Repr

/-- `HandshakeResponse41::new` from `src/handshake.rs`: the auth response is
`SHA1(password) XOR SHA1(auth_plugin_data ++ SHA1(SHA1(password)))`, where
`iter().zip(..).map(xor)` is `List.zipWith Nat.xor`. -/
def HandshakeResponse41.new (username password database : List Nat)
    (auth_plugin_data : List Nat) : HandshakeResponse41 :=
  let hash1 := sha1 password
  let hash2 := sha1 hash1
  let hash3 := sha1 (auth_plugin_data ++ hash2)
  let auth_response := List.zipWith (fun a b => Nat.xor a b) hash1 hash3
  { client_flag := 0x19bfa28d
    max_packet_size := 16777216
    character_set := 8
    filler := List.replicate 23 0
    username := username
    auth_response := auth_response
    database := database
    client_plugin_name := asciiBytes "mysql_native_password" }

/-- The 20-byte challenge fixture of `tests::test_handshake_response_41`
in `src/protocol.rs`. -/
def challengeFixture : List Nat :=
  [0x9, 0x12, 0x1, 0x3f, 0x41, 0x22, 0x33, 0x36, 0x15, 0x2, 0x25, 0xd, 0x44,
   0xc, 0xc, 0x2c, 0x4f, 0x5b, 0x6a, 0x55]

/-- The documented 20-byte proof expected for password `"root"` and
`challengeFixture`. -/
def proofFixture : List Nat :=
  [0xd5, 0xd2, 0xff, 0x2c, 0x94, 0x92, 0x95, 0x6f, 0x7f, 0xfa, 0x6c, 0x59,
   0x21, 0x84, 0xf1, 0x7e, 0xdf, 0xbe, 0x4b, 0x40]

set_option maxRecDepth 40000 in
/-- C3: the auth proof built by the handshake response equals
`SHA1(password) XOR SHA1(challenge ++ SHA1(SHA1(password)))` for every
password and challenge (hence is deterministic), and on the `"root"` /
fixture-challenge test vector it equals the documented 20-byte proof. -/
theorem claim_C3 (username password database challenge : List Nat) :
    (HandshakeResponse41.new username password database challenge).auth_response =
      List.zipWith (fun a b => Nat.xor a b) (sha1 password)
        (sha1 (challenge ++ sha1 (sha1 password))) ∧
    (HandshakeResponse41.new (asciiBytes "root") (asciiBytes "root")
        (asciiBytes "test") challengeFixture).auth_response = proofFixture := by
  constructor
  · rfl
  · decide

/-- A SHA-1 digest is always 20 bytes. -/
theorem sha1_length (msg : List Nat) : (sha1 msg).length = 20 := by
  simp [sha1, be32]

set_option maxRecDepth 40000 in
/-- C4 counterexample: with the empty password and the fixture challenge the
computed auth proof is a (20-byte) XOR value, not the empty byte sequence —
the code has no empty-password special case. -/
theorem claim_C4_counterexample :
    (HandshakeResponse41.new (asciiBytes "root") [] (asciiBytes "test")
        challengeFixture).auth_response ≠ [] := by decide

/-- C4 (amended): for every challenge, the proof computed for the empty
password is still the 20-byte value
`SHA1("") XOR SHA1(challenge ++ SHA1(SHA1("")))`; it is never empty. -/
theorem claim_C4 (username database challenge : List Nat) :
    (HandshakeResponse41.new username [] database challenge).auth_response =
      List.zipWith (fun a b => Nat.xor a b) (sha1 [])
        (sha1 (challenge ++ sha1 (sha1 []))) ∧
    (HandshakeResponse41.new username [] database challenge).auth_response.length
      = 20 := by
  refine ⟨rfl, ?_⟩
  show (List.zipWith (fun a b => Nat.xor a b) (sha1 [])
    (sha1 (challenge ++ sha1 (sha1 [])))).length = 20
  rw [List.length_zipWith, sha1_length, sha1_length]
  rfl

/-- `HandshakeV10` (identical field lists in `src/handshake.rs` and
`src/protocol.rs`); strings are carried as their UTF-8 bytes. -/
structure HandshakeV10 where
  protocol_version : Nat
  server_version : List Nat
  thread_id : Nat
  auth_plugin_data_part_1 : List Nat
  filler : Nat
  capability_flags_1 : Nat
  character_set : Nat
  status_flags : Nat
  capability_flags_2 : Nat
  auth_plugin_data_len : Nat
  reserved : List Nat
  auth_plugin_data_part_2 : List Nat
  auth_plugin_name : List Nat
deriving DecidableEq, Repr

/-- An all-zero `HandshakeV10`, used as the default for `Outcome.getOkD`. -/
def defaultHandshakeV10 : HandshakeV10 :=
  { protocol_version := 0, server_version := [], thread_id := 0,
    auth_plugin_data_part_1 := [], filler := 0, capability_flags_1 := 0,
    character_set := 0, status_flags := 0, capability_flags_2 := 0,
    auth_plugin_data_len := 0, reserved := [], auth_plugin_data_part_2 := [],
    auth_plugin_name := [] }

namespace handshake

/-- Fuel-indexed body of the NUL-terminated string loop inlined in
`HandshakeV10::decode` (src/handshake.rs): read bytes, advancing `pos`,
until a zero byte; running off the end of the buffer panics. The fuel
`pkt.length + 1 - pos` always suffices, so exhausted fuel coincides with the
out-of-bounds panic. -/
def scanNulAux (pkt : List Nat) : Nat → Nat → List Nat → Outcome (List Nat × Nat)
  | 0, _, _ => .panic
  | fuel + 1, pos, buf =>
    if pos < pkt.length then
      if pkt.getD pos 0 = 0 then .ok (buf, pos + 1)
      else scanNulAux pkt fuel (pos + 1) (buf ++ [pkt.getD pos 0])
  else .panic

/-- The NUL-terminated string loop of `HandshakeV10::decode`
(src/handshake.rs): returns the bytes before the NUL and the position just
past it. -/
def scanNul (pkt : List Nat) (pos : Nat) : Outcome (List Nat × Nat) :=
  scanNulAux pkt (pkt.length + 1 - pos) pos []

/-- `HandshakeV10::decode` from `src/handshake.rs`. Positions are tracked
explicitly: after the version byte and the NUL-terminated server version
the cursor is `pos`; the u8 subtraction `auth_plugin_data_len - 8` wraps
modulo 256 (`(auth_plugin_data_len + 248) % 256`). -/
def HandshakeV10.decode (pkt : List Nat) : Outcome HandshakeV10 :=
  Outcome.bind (idx pkt 0) fun protocol_version =>
  if protocol_version ≠ 10 then
    .error (asciiBytes "invalid protocol version: " ++ natDecimal protocol_version)
  else
  Outcome.bind (scanNul pkt 1) fun sv =>
  Outcome.bind (string_from_utf8 sv.1) fun server_version =>
  Outcome.bind (idx pkt sv.2) fun t0 =>
  Outcome.bind (idx pkt (sv.2 + 1)) fun t1 =>
  Outcome.bind (idx pkt (sv.2 + 2)) fun t2 =>
  Outcome.bind (idx pkt (sv.2 + 3)) fun t3 =>
  Outcome.bind (rustSlice pkt (sv.2 + 4) (sv.2 + 12)) fun auth_plugin_data_part_1 =>
  Outcome.bind (idx pkt (sv.2 + 12)) fun filler =>
  Outcome.bind (idx pkt (sv.2 + 13)) fun c0 =>
  Outcome.bind (idx pkt (sv.2 + 14)) fun c1 =>
  Outcome.bind (idx pkt (sv.2 + 15)) fun character_set =>
  Outcome.bind (idx pkt (sv.2 + 16)) fun s0 =>
  Outcome.bind (idx pkt (sv.2 + 17)) fun s1 =>
  Outcome.bind (idx pkt (sv.2 + 18)) fun d0 =>
  Outcome.bind (idx pkt (sv.2 + 19)) fun d1 =>
  Outcome.bind (idx pkt (sv.2 + 20)) fun auth_plugin_data_len =>
  Outcome.bind (rustSlice pkt (sv.2 + 31)
      (sv.2 + 31 + Nat.max ((auth_plugin_data_len + 248) % 256) 13 - 1))
    fun auth_plugin_data_part_2 =>
  Outcome.bind (scanNul pkt
      (sv.2 + 31 + Nat.max ((auth_plugin_data_len + 248) % 256) 13)) fun apn =>
  Outcome.bind (string_from_utf8 apn.1) fun auth_plugin_name =>
  .ok { protocol_version := protocol_version,
        server_version := server_version,
        thread_id := t0 + 256 * t1 + 65536 * t2 + 16777216 * t3,
        auth_plugin_data_part_1 := auth_plugin_data_part_1,
        filler := filler,
        capability_flags_1 := c0 + 256 * c1,
        character_set := character_set,
        status_flags := s0 + 256 * s1,
        capability_flags_2 := d0 + 256 * d1,
        auth_plugin_data_len := auth_plugin_data_len,
        reserved := List.replicate 10 0,
        auth_plugin_data_part_2 := auth_plugin_data_part_2,
        auth_plugin_name := auth_plugin_name }

/-- `HandshakeV10::auth_plugin_data` from `src/handshake.rs`: the full
challenge is the concatenation of the two salt fragments. -/
def HandshakeV10.auth_plugin_data (h : HandshakeV10) : List Nat :=
  h.auth_plugin_data_part_1 ++ h.auth_plugin_data_part_2

end handshake

namespace protocol

/-- Fuel-indexed body of the NUL-terminated string loop inlined in
`HandshakeV10::decode` (src/protocol.rs); same shape as the handshake.rs
copy. -/
def scanNulAux (pkt : List Nat) : Nat → Nat → List Nat → Outcome (List Nat × Nat)
  | 0, _, _ => .panic
  | fuel + 1, pos, buf =>
    if pos < pkt.length then
      if pkt.getD pos 0 = 0 then .ok (buf, pos + 1)
      else scanNulAux pkt fuel (pos + 1) (buf ++ [pkt.getD pos 0])
    else .panic

/-- The NUL-terminated string loop of `HandshakeV10::decode`
(src/protocol.rs). -/
def scanNul (pkt : List Nat) (pos : Nat) : Outcome (List Nat × Nat) :=
  scanNulAux pkt (pkt.length + 1 - pos) pos []

/-- `HandshakeV10::decode` from `src/protocol.rs` (the historical duplicate
of the decoder in `src/handshake.rs`). -/
def HandshakeV10.decode (pkt : List Nat) : Outcome HandshakeV10 :=
  Outcome.bind (idx pkt 0) fun protocol_version =>
  if protocol_version ≠ 10 then
    .error (asciiBytes "invalid protocol version: " ++ natDecimal protocol_version)
  else
  Outcome.bind (scanNul pkt 1) fun sv =>
  Outcome.bind (string_from_utf8 sv.1) fun server_version =>
  Outcome.bind (idx pkt sv.2) fun t0 =>
  Outcome.bind (idx pkt (sv.2 + 1)) fun t1 =>
  Outcome.bind (idx pkt (sv.2 + 2)) fun t2 =>
  Outcome.bind (idx pkt (sv.2 + 3)) fun t3 =>
  Outcome.bind (rustSlice pkt (sv.2 + 4) (sv.2 + 12)) fun auth_plugin_data_part_1 =>
  Outcome.bind (idx pkt (sv.2 + 12)) fun filler =>
  Outcome.bind (idx pkt (sv.2 + 13)) fun c0 =>
  Outcome.bind (idx pkt (sv.2 + 14)) fun c1 =>
  Outcome.bind (idx pkt (sv.2 + 15)) fun character_set =>
  Outcome.bind (idx pkt (sv.2 + 16)) fun s0 =>
  Outcome.bind (idx pkt (sv.2 + 17)) fun s1 =>
  Outcome.bind (idx pkt (sv.2 + 18)) fun d0 =>
  Outcome.bind (idx pkt (sv.2 + 19)) fun d1 =>
  Outcome.bind (idx pkt (sv.2 + 20)) fun auth_plugin_data_len =>
  Outcome.bind (rustSlice pkt (sv.2 + 31)
      (sv.2 + 31 + Nat.max ((auth_plugin_data_len + 248) % 256) 13 - 1))
    fun auth_plugin_data_part_2 =>
  Outcome.bind (scanNul pkt
      (sv.2 + 31 + Nat.max ((auth_plugin_data_len + 248) % 256) 13)) fun apn =>
  Outcome.bind (string_from_utf8 apn.1) fun auth_plugin_name =>
  .ok { protocol_version := protocol_version,
        server_version := server_version,
        thread_id := t0 + 256 * t1 + 65536 * t2 + 16777216 * t3,
        auth_plugin_data_part_1 := auth_plugin_data_part_1,
        filler := filler,
        capability_flags_1 := c0 + 256 * c1,
        character_set := character_set,
        status_flags := s0 + 256 * s1,
        capability_flags_2 := d0 + 256 * d1,
        auth_plugin_data_len := auth_plugin_data_len,
        reserved := List.replicate 10 0,
        auth_plugin_data_part_2 := auth_plugin_data_part_2,
        auth_plugin_name := auth_plugin_name }

end protocol

theorem scanNulAux_eq (pkt : List Nat) (fuel : Nat) :
    ∀ (pos : Nat) (buf : List Nat),
      handshake.scanNulAux pkt fuel pos buf = protocol.scanNulAux pkt fuel pos buf := by
  induction fuel with
  | zero => intro pos buf; rfl
  | succ fuel ih =>
    intro pos buf
    simp only [handshake.scanNulAux, protocol.scanNulAux]
    by_cases h : pos < pkt.length
    · rw [if_pos h, if_pos h]
      by_cases h0 : pkt.getD pos 0 = 0
      · rw [if_pos h0, if_pos h0]
      · rw [if_neg h0, if_neg h0, ih]
    · rw [if_neg h, if_neg h]

theorem scanNul_eq : handshake.scanNul = protocol.scanNul := by
  funext pkt pos
  unfold handshake.scanNul protocol.scanNul
  exact scanNulAux_eq pkt _ pos []

/-- C10: the two copies of the greeting decoder — `HandshakeV10::decode` in
`src/handshake.rs` and in `src/protocol.rs` — compute the same function:
on every input packet they agree (same success, error or panic, with
field-for-field equal results). -/
theorem claim_C10 (pkt : List Nat) :
    handshake.HandshakeV10.decode pkt = protocol.HandshakeV10.decode pkt := by
  unfold handshake.HandshakeV10.decode protocol.HandshakeV10.decode
  rw [scanNul_eq]

/-- The greeting packet fixture of `tests::test_handshake_v10` in
`src/protocol.rs`. -/
def greetingFixture : List Nat :=
  [0xa, 0x38, 0x2e, 0x33, 0x2e, 0x30, 0x0, 0x8, 0x0, 0x0, 0x0, 0x9, 0x12,
   0x1, 0x3f, 0x41, 0x22, 0x33, 0x36, 0x0, 0xff, 0xff, 0xff, 0x2, 0x0, 0xff,
   0xdf, 0x15, 0x0, 0x0, 0x0, 0x0, 0x0, 0x0, 0x0, 0x0, 0x0, 0x0, 0x15, 0x2,
   0x25, 0xd, 0x44, 0xc, 0xc, 0x2c, 0x4f, 0x5b, 0x6a, 0x55, 0x0, 0x6d, 0x79,
   0x73, 0x71, 0x6c, 0x5f, 0x6e, 0x61, 0x74, 0x69, 0x76, 0x65, 0x5f, 0x70,
   0x61, 0x73, 0x73, 0x77, 0x6f, 0x72, 0x64, 0x0]

/-- The decoded greeting expected for `greetingFixture`, per the assertions
of `tests::test_handshake_v10`. -/
def greetingDecoded : HandshakeV10 :=
  { protocol_version := 10,
    server_version := asciiBytes "8.3.0",
    thread_id := 8,
    auth_plugin_data_part_1 := [0x9, 0x12, 0x1, 0x3f, 0x41, 0x22, 0x33, 0x36],
    filler := 0,
    capability_flags_1 := 0xffff,
    character_set := 0xff,
    status_flags := 0x0002,
    capability_flags_2 := 0xdfff,
    auth_plugin_data_len := 21,
    reserved := List.replicate 10 0,
    auth_plugin_data_part_2 :=
      [0x15, 0x2, 0x25, 0xd, 0x44, 0xc, 0xc, 0x2c, 0x4f, 0x5b, 0x6a, 0x55],
    auth_plugin_name := asciiBytes "mysql_native_password" }

/-- A 282-byte greeting whose declared salt length byte is 0: the u8
subtraction `auth_plugin_data_len - 8` wraps to 248, so the decoder stores
247 bytes for the second salt fragment. -/
def wrapGreetingPacket : List Nat :=
  [10, 0, 1, 0, 0, 0, 1, 1, 1, 1, 1, 1, 1, 1, 0, 0, 0, 0, 0, 0, 0, 0, 0] ++
  List.replicate 10 0 ++ List.replicate 248 1 ++ [0]

set_option maxRecDepth 40000 in
/-- C7 counterexample: `wrapGreetingPacket` is accepted by the greeting
decoder with declared salt length 0, and its stored second salt fragment
has 247 bytes — not `max(declared_salt_length - 8, 13) - 1 = 12` as the
claim's natural-subtraction formula demands. -/
theorem claim_C7_counterexample :
    Outcome.isOk (handshake.HandshakeV10.decode wrapGreetingPacket) = true ∧
    ((handshake.HandshakeV10.decode wrapGreetingPacket).getOkD
        defaultHandshakeV10).auth_plugin_data_len = 0 ∧
    ((handshake.HandshakeV10.decode wrapGreetingPacket).getOkD
        defaultHandshakeV10).auth_plugin_data_part_2.length = 247 ∧
    Nat.max (0 - 8) 13 - 1 = 12 := by decide

set_option maxRecDepth 40000 in
/-- C7 (amended): the greeting decoder fails on a protocol-version byte
other than 10; on every accepted payload the first salt fragment is exactly
8 bytes and the second salt fragment's stored length is
`max(auth_plugin_data_len -u8 8, 13) - 1` where `-u8` is the wrapping u8
subtraction `(auth_plugin_data_len + 248) % 256` (for declared lengths ≥ 8
this is the claimed `max(declared - 8, 13) - 1`); and on the documented
fixture it yields protocol_version 10, server_version "8.3.0", thread_id 8
and a challenge equal to the concatenation of the two fragments. -/
theorem claim_C7 :
    (∀ pkt : List Nat, pkt ≠ [] → pkt.getD 0 0 ≠ 10 →
      Outcome.isError (handshake.HandshakeV10.decode pkt) = true) ∧
    (∀ (pkt : List Nat) (h : HandshakeV10),
      handshake.HandshakeV10.decode pkt = .ok h →
      h.auth_plugin_data_part_1.length = 8 ∧
      h.auth_plugin_data_part_2.length =
        Nat.max ((h.auth_plugin_data_len + 248) % 256) 13 - 1) ∧
    (handshake.HandshakeV10.decode greetingFixture = .ok greetingDecoded ∧
     greetingDecoded.protocol_version = 10 ∧
     greetingDecoded.server_version = asciiBytes "8.3.0" ∧
     greetingDecoded.thread_id = 8 ∧
     handshake.HandshakeV10.auth_plugin_data greetingDecoded =
       greetingDecoded.auth_plugin_data_part_1 ++
         greetingDecoded.auth_plugin_data_part_2 ∧
     handshake.HandshakeV10.auth_plugin_data greetingDecoded =
       challengeFixture) := by
  refine ⟨?_, ?_, ?_⟩
  · intro pkt hne h10
    have hlen : 0 < pkt.length := by
      cases pkt
      · exact absurd rfl hne
      · simp
    unfold handshake.HandshakeV10.decode
    rw [idx_ok_of_lt pkt 0 hlen, Outcome.bind_ok, if_pos h10]
    rfl
  · intro pkt h hdec
    unfold handshake.HandshakeV10.decode at hdec
    obtain ⟨pv, hpv, hdec⟩ := Outcome.bind_eq_ok hdec
    by_cases hv : pv ≠ 10
    · rw [if_pos hv] at hdec
      exact Outcome.noConfusion hdec
    rw [if_neg hv] at hdec
    obtain ⟨sv, hsv, hdec⟩ := Outcome.bind_eq_ok hdec
    obtain ⟨sver, hsver, hdec⟩ := Outcome.bind_eq_ok hdec
    obtain ⟨t0, _, hdec⟩ := Outcome.bind_eq_ok hdec
    obtain ⟨t1, _, hdec⟩ := Outcome.bind_eq_ok hdec
    obtain ⟨t2, _, hdec⟩ := Outcome.bind_eq_ok hdec
    obtain ⟨t3, _, hdec⟩ := Outcome.bind_eq_ok hdec
    obtain ⟨apd1, hsl1, hdec⟩ := Outcome.bind_eq_ok hdec
    obtain ⟨fil, _, hdec⟩ := Outcome.bind_eq_ok hdec
    obtain ⟨c0, _, hdec⟩ := Outcome.bind_eq_ok hdec
    obtain ⟨c1, _, hdec⟩ := Outcome.bind_eq_ok hdec
    obtain ⟨cs, _, hdec⟩ := Outcome.bind_eq_ok hdec
    obtain ⟨s0, _, hdec⟩ := Outcome.bind_eq_ok hdec
    obtain ⟨s1, _, hdec⟩ := Outcome.bind_eq_ok hdec
    obtain ⟨d0, _, hdec⟩ := Outcome.bind_eq_ok hdec
    obtain ⟨d1, _, hdec⟩ := Outcome.bind_eq_ok hdec
    obtain ⟨apdl, _, hdec⟩ := Outcome.bind_eq_ok hdec
    obtain ⟨apd2, hsl2, hdec⟩ := Outcome.bind_eq_ok hdec
    obtain ⟨apn, _, hdec⟩ := Outcome.bind_eq_ok hdec
    obtain ⟨apname, _, hdec⟩ := Outcome.bind_eq_ok hdec
    injection hdec with hdec
    subst hdec
    obtain ⟨hab1, hb1, hbs1⟩ := rustSlice_eq_ok hsl1
    obtain ⟨hab2, hb2, hbs2⟩ := rustSlice_eq_ok hsl2
    have hM : 13 ≤ Nat.max ((apdl + 248) % 256) 13 := Nat.le_max_right _ _
    constructor
    · show apd1.length = 8
      rw [hbs1, List.length_take, List.length_drop]
      omega
    · show apd2.length = Nat.max ((apdl + 248) % 256) 13 - 1
      rw [hbs2, List.length_take, List.length_drop]
      generalize hMg : Nat.max ((apdl + 248) % 256) 13 = M at hb2 hM ⊢
      omega
  · refine ⟨by decide, rfl, rfl, rfl, rfl, by decide⟩

set_option maxRecDepth 40000 in
/-- Witness for C7: a version-9 byte is rejected, and the documented
fixture's decoded greeting satisfies the fragment-length laws. -/
theorem claim_C7_witness :
    Outcome.isError (handshake.HandshakeV10.decode [9]) = true ∧
    (greetingDecoded.auth_plugin_data_part_1.length = 8 ∧
     greetingDecoded.auth_plugin_data_part_2.length =
       Nat.max ((greetingDecoded.auth_plugin_data_len + 248) % 256) 13 - 1) :=
  ⟨claim_C7.1 [9] (by decide) (by decide),
   claim_C7.2.1 greetingFixture greetingDecoded (by decide)⟩

/-! ### Packet transport (`src/connection.rs`)

`Connection` state visible to the embedded methods: the unread bytes of the
TCP stream, the bytes written so far, and the expected sequence counter (a
u8, kept modulo 256). `read_exact` on a stream with fewer bytes than
requested is the end-of-stream I/O error surfaced through `?`. -/

/-- Mutable state of a `Connection` (src/connection.rs). -/
structure ConnState where
  input : List Nat
  output : List Nat
  sequence : Nat
deriving DecidableEq, Repr

/-- `Read::read_exact` into a buffer of `n` bytes. -/
def readExact (n : Nat) (st : ConnState) : Outcome (List Nat) × ConnState :=
  if n ≤ st.input.length then
    (.ok (st.input.take n), { st with input := st.input.drop n })
  else
    (.error (asciiBytes "failed to fill whole buffer"), st)

/-- `Connection::read_packet` from `src/connection.rs`: 4-byte header
(3-byte little-endian length, 1-byte sequence), sequence check before the
counter is incremented, then exactly `packet_len` payload bytes. -/
def readPacket (st : ConnState) : Outcome (List Nat) × ConnState :=
  match readExact 4 st with
  | (.ok buf, st1) =>
    if buf.getD 3 0 ≠ st1.sequence then
      (.error (asciiBytes "invalid sequence: " ++ natDecimal (buf.getD 3 0)), st1)
    else
      readExact (buf.getD 0 0 + 256 * buf.getD 1 0 + 65536 * buf.getD 2 0)
        { st1 with sequence := (st1.sequence + 1) % 256 }
  | (.error e, st1) => (.error e, st1)
  | (.panic, st1) => (.panic, st1)

/-- `Connection::write_packet` from `src/connection.rs`: 3-byte
little-endian length, current counter as the sequence byte, counter
incremented; `write_all`/`flush` are modelled as appending to `output`. -/
def writePacket (payload : List Nat) (st : ConnState) : ConnState :=
  { st with
    sequence := (st.sequence + 1) % 256,
    output := st.output ++
      [payload.length % 256, payload.length / 256 % 256,
       payload.length / 65536 % 256, st.sequence] ++ payload }

/-- C6: if the received packet's sequence byte differs from the expected
counter, `read_packet` fails with the `invalid sequence` error and leaves
the counter unchanged; if it matches and the declared payload is available,
`read_packet` increments the counter by exactly one (as the u8 counter,
modulo 256) and returns exactly the number of payload bytes declared by the
3-byte little-endian length header. -/
theorem claim_C6 (st : ConnState) (b0 b1 b2 s : Nat) (body : List Nat)
    (hin : st.input = [b0, b1, b2, s] ++ body) :
    (s ≠ st.sequence →
      (readPacket st).1 = .error (asciiBytes "invalid sequence: " ++ natDecimal s) ∧
      (readPacket st).2.sequence = st.sequence) ∧
    (s = st.sequence → b0 + 256 * b1 + 65536 * b2 ≤ body.length →
      (readPacket st).1 = .ok (body.take (b0 + 256 * b1 + 65536 * b2)) ∧
      ((readPacket st).1.getOkD []).length = b0 + 256 * b1 + 65536 * b2 ∧
      (readPacket st).2.sequence = (st.sequence + 1) % 256) := by
  have h4 : readExact 4 st =
      (.ok [b0, b1, b2, s], { st with input := body }) := by
    unfold readExact
    rw [hin]
    rw [if_pos (by simp)]
    simp
  constructor
  · intro hne
    have hrp : readPacket st =
        (.error (asciiBytes "invalid sequence: " ++ natDecimal s),
         { st with input := body }) := by
      unfold readPacket
      rw [h4]
      dsimp only [List.getD_cons_succ, List.getD_cons_zero]
      rw [if_pos hne]
    rw [hrp]
    exact ⟨rfl, rfl⟩
  · intro hs hble
    have hrp : readPacket st =
        (.ok (body.take (b0 + 256 * b1 + 65536 * b2)),
         { st with input := body.drop (b0 + 256 * b1 + 65536 * b2),
                   sequence := (st.sequence + 1) % 256 }) := by
      unfold readPacket
      rw [h4]
      dsimp only [List.getD_cons_succ, List.getD_cons_zero]
      rw [if_neg (fun h => h hs)]
      unfold readExact
      dsimp only
      rw [if_pos hble]
    rw [hrp]
    refine ⟨rfl, ?_, rfl⟩
    dsimp only [Outcome.getOkD]
    rw [List.length_take]
    omega

/-- Witness for C6: a wrong sequence byte (5 instead of 0) is rejected
without advancing the counter; a matching one returns the 1-byte payload
and advances the counter to 1. -/
theorem claim_C6_witness :
    ((readPacket ⟨[1, 0, 0, 5, 99], [], 0⟩).1 =
        .error (asciiBytes "invalid sequence: " ++ natDecimal 5) ∧
      (readPacket ⟨[1, 0, 0, 5, 99], [], 0⟩).2.sequence = 0) ∧
    ((readPacket ⟨[1, 0, 0, 0, 99], [], 0⟩).1 = .ok ([99].take 1) ∧
      ((readPacket ⟨[1, 0, 0, 0, 99], [], 0⟩).1.getOkD []).length = 1 ∧
      (readPacket ⟨[1, 0, 0, 0, 99], [], 0⟩).2.sequence = (0 + 1) % 256) :=
  ⟨(claim_C6 ⟨[1, 0, 0, 5, 99], [], 0⟩ 1 0 0 5 [99] rfl).1 (by decide),
   (claim_C6 ⟨[1, 0, 0, 0, 99], [], 0⟩ 1 0 0 0 [99] rfl).2 rfl (by decide)⟩

/-- `ComQuery` from `src/command.rs`. -/
structure ComQuery where
  command : Nat
  parameter_count : Nat
  parameter_set_count : Nat
  query : List Nat
deriving DecidableEq, Repr

/-- `ComQuery::new`: command 0x03, no parameters, one parameter set. -/
def ComQuery.new (query : List Nat) : ComQuery :=
  { command := 0x03, parameter_count := 0, parameter_set_count := 1,
    query := query }

/-- `ComQuery::encode`: command byte, the two count bytes (`as u8`), then
the raw SQL bytes. -/
def ComQuery.encode (c : ComQuery) : List Nat :=
  [c.command, c.parameter_count % 256, c.parameter_set_count % 256] ++ c.query

/-- `ErrPacket` from `src/command.rs`; strings carried as UTF-8 bytes. -/
structure ErrPacket where
  header : Nat
  error_code : Nat
  sql_state_marker : List Nat
  sql_state : List Nat
  error_message : List Nat
deriving DecidableEq, Repr

/-- `ErrPacket::decode` from `src/command.rs`: header 0xFF, 2-byte error
code, 1-byte state marker, 5-byte SQL state, rest is the message. -/
def ErrPacket.decode (pkt : List Nat) : Outcome ErrPacket :=
  Outcome.bind (idx pkt 0) fun header =>
  if header ≠ 0xff then .error (asciiBytes "not err packet")
  else
  Outcome.bind (idx pkt 1) fun e0 =>
  Outcome.bind (idx pkt 2) fun e1 =>
  Outcome.bind (rustSlice pkt 3 4) fun m =>
  Outcome.bind (string_from_utf8 m) fun sql_state_marker =>
  Outcome.bind (rustSlice pkt 4 9) fun s =>
  Outcome.bind (string_from_utf8 s) fun sql_state =>
  Outcome.bind (rustSlice pkt 9 pkt.length) fun msg =>
  Outcome.bind (string_from_utf8 msg) fun error_message =>
  .ok { header := header, error_code := e0 + 256 * e1,
        sql_state_marker := sql_state_marker, sql_state := sql_state,
        error_message := error_message }

/-- `ErrPacket::human_readable_text` from `src/command.rs`:
`"ERROR {error_code} ({sql_state}): {error_message}"`. -/
def ErrPacket.human_readable_text (e : ErrPacket) : List Nat :=
  asciiBytes "ERROR " ++ natDecimal e.error_code ++ asciiBytes " (" ++
    e.sql_state ++ asciiBytes "): " ++ e.error_message

/-- `ColumnDefinition41` from `src/command.rs`. -/
structure ColumnDefinition41 where
  catalog : List Nat
  schema : List Nat
  table : List Nat
  org_table : List Nat
  name : List Nat
  org_name : List Nat
  length_of_fixed_length_fields : Nat
  character_set : Nat
  column_length : Nat
  type_ : Nat
  flags : Nat
  decimals : Nat
deriving DecidableEq, Repr

/-- `ColumnDefinition41::decode` from `src/command.rs`: six length-encoded
strings, a length-encoded integer, then the fixed-width little-endian
fields; each `rK` is a decoded value paired with its consumed byte count,
and positions accumulate the consumed counts. -/
def ColumnDefinition41.decode (pkt : List Nat) : Outcome ColumnDefinition41 :=
  Outcome.bind (decode_lenenc_string pkt 0) fun r1 =>
  Outcome.bind (decode_lenenc_string pkt r1.2) fun r2 =>
  Outcome.bind (decode_lenenc_string pkt (r1.2 + r2.2)) fun r3 =>
  Outcome.bind (decode_lenenc_string pkt (r1.2 + r2.2 + r3.2)) fun r4 =>
  Outcome.bind (decode_lenenc_string pkt (r1.2 + r2.2 + r3.2 + r4.2)) fun r5 =>
  Outcome.bind (decode_lenenc_string pkt
      (r1.2 + r2.2 + r3.2 + r4.2 + r5.2)) fun r6 =>
  Outcome.bind (decode_lenenc_integer pkt
      (r1.2 + r2.2 + r3.2 + r4.2 + r5.2 + r6.2)) fun r7 =>
  Outcome.bind (idx pkt
      (r1.2 + r2.2 + r3.2 + r4.2 + r5.2 + r6.2 + r7.2)) fun cs0 =>
  Outcome.bind (idx pkt
      (r1.2 + r2.2 + r3.2 + r4.2 + r5.2 + r6.2 + r7.2 + 1)) fun cs1 =>
  Outcome.bind (idx pkt
      (r1.2 + r2.2 + r3.2 + r4.2 + r5.2 + r6.2 + r7.2 + 2)) fun l0 =>
  Outcome.bind (idx pkt
      (r1.2 + r2.2 + r3.2 + r4.2 + r5.2 + r6.2 + r7.2 + 3)) fun l1 =>
  Outcome.bind (idx pkt
      (r1.2 + r2.2 + r3.2 + r4.2 + r5.2 + r6.2 + r7.2 + 4)) fun l2 =>
  Outcome.bind (idx pkt
      (r1.2 + r2.2 + r3.2 + r4.2 + r5.2 + r6.2 + r7.2 + 5)) fun l3 =>
  Outcome.bind (idx pkt
      (r1.2 + r2.2 + r3.2 + r4.2 + r5.2 + r6.2 + r7.2 + 6)) fun type_ =>
  Outcome.bind (idx pkt
      (r1.2 + r2.2 + r3.2 + r4.2 + r5.2 + r6.2 + r7.2 + 7)) fun f0 =>
  Outcome.bind (idx pkt
      (r1.2 + r2.2 + r3.2 + r4.2 + r5.2 + r6.2 + r7.2 + 8)) fun f1 =>
  Outcome.bind (idx pkt
      (r1.2 + r2.2 + r3.2 + r4.2 + r5.2 + r6.2 + r7.2 + 9)) fun decimals =>
  .ok { catalog := r1.1, schema := r2.1, table := r3.1, org_table := r4.1,
        name := r5.1, org_name := r6.1,
        length_of_fixed_length_fields := r7.1,
        character_set := cs0 + 256 * cs1,
        column_length := l0 + 256 * l1 + 65536 * l2 + 16777216 * l3,
        type_ := type_, flags := f0 + 256 * f1, decimals := decimals }

/-- The two shapes of a successful `Connection::query` result: the
human-readable server error text, or the decoded rows (the Rust code then
`Debug`-formats the row list before returning; that formatting is
presentation only and is abstracted to the row list itself). -/
inductive QueryResult where
  | errText : List Nat → QueryResult
  | rows : List (List (List Nat)) → QueryResult
deriving DecidableEq, Repr

theorem readPacket_ok_input_lt {st : ConnState} {pkt : List Nat}
    {st1 : ConnState} (h : readPacket st = (.ok pkt, st1)) :
    st1.input.length < st.input.length := by
  unfold readPacket readExact at h
  by_cases h4 : 4 ≤ st.input.length
  · rw [if_pos h4] at h
    dsimp only at h
    split at h
    · exact absurd (congrArg Prod.fst h) (by simp)
    · split at h
      · have hinp := congrArg (fun x : Outcome (List Nat) × ConnState =>
          x.2.input.length) h
        dsimp only at hinp
        rw [List.length_drop, List.length_drop] at hinp
        omega
      · exact absurd (congrArg Prod.fst h) (by simp)
  · rw [if_neg h4] at h
    dsimp only at h
    exact absurd (congrArg Prod.fst h) (by simp)

/-- The column-definition loop of `Connection::query` (src/connection.rs):
read and decode `n` column-definition packets. -/
def readCols : Nat → ConnState → Outcome (List ColumnDefinition41) × ConnState
  | 0, st => (.ok [], st)
  | n + 1, st =>
    match readPacket st with
    | (.ok pkt, st1) =>
      match ColumnDefinition41.decode pkt with
      | .ok col =>
        match readCols n st1 with
        | (.ok cols, st2) => (.ok (col :: cols), st2)
        | (.error e, st2) => (.error e, st2)
        | (.panic, st2) => (.panic, st2)
      | .error e => (.error e, st1)
      | .panic => (.panic, st1)
    | (.error e, st1) => (.error e, st1)
    | (.panic, st1) => (.panic, st1)

/-- The row loop of `Connection::query` (src/connection.rs): read packets,
stopping on a 0xFE header, otherwise decoding each as a result row;
terminates because a successful `read_packet` consumes at least its 4
header bytes. -/
def readRows (st : ConnState) (acc : List (List (List Nat))) :
    Outcome (List (List (List Nat))) × ConnState :=
  match hrp : readPacket st with
  | (.ok pkt, st1) =>
    match idx pkt 0 with
    | .ok h =>
      if h = 0xfe then (.ok acc, st1)
      else
        match ResultsetRow.decode pkt with
        | .ok row => readRows st1 (acc ++ [row])
        | .error e => (.error e, st1)
        | .panic => (.panic, st1)
    | .error e => (.error e, st1)
    | .panic => (.panic, st1)
  | (.error e, st1) => (.error e, st1)
  | (.panic, st1) => (.panic, st1)
termination_by st.input.length
decreasing_by exact readPacket_ok_input_lt hrp

/-- `Connection::query` from `src/connection.rs`: reset the sequence
counter, send the encoded `COM_QUERY`, read the first response packet;
a 0xFF header is decoded as an `ErrPacket` and surfaced as its
human-readable text, otherwise the first byte is the column count, that
many column definitions are read, then rows until a 0xFE header. -/
def query (st : ConnState) (sql : List Nat) : Outcome QueryResult × ConnState :=
  match readPacket (writePacket (ComQuery.encode (ComQuery.new sql))
      { st with sequence := 0 }) with
  | (.ok pkt, st1) =>
    match idx pkt 0 with
    | .ok h =>
      if h = 0xff then
        match ErrPacket.decode pkt with
        | .ok err => (.ok (.errText (ErrPacket.human_readable_text err)), st1)
        | .error e => (.error e, st1)
        | .panic => (.panic, st1)
      else
        match readCols h st1 with
        | (.ok _cols, st2) =>
          match readRows st2 [] with
          | (.ok rows, st3) => (.ok (.rows rows), st3)
          | (.error e, st3) => (.error e, st3)
          | (.panic, st3) => (.panic, st3)
        | (.error e, st2) => (.error e, st2)
        | (.panic, st2) => (.panic, st2)
    | .error e => (.error e, st1)
    | .panic => (.panic, st1)
  | (.error e, st1) => (.error e, st1)
  | (.panic, st1) => (.panic, st1)

/-- The 4-byte header (3-byte little-endian length, sequence byte `seq`)
plus payload of one server packet. -/
def frame1 (seq : Nat) (p : List Nat) : List Nat :=
  [p.length % 256, p.length / 256 % 256, p.length / 65536 % 256, seq] ++ p

/-- A stream of framed server packets with consecutive sequence numbers
starting at `seq`. -/
def framePackets : Nat → List (List Nat) → List Nat
  | _, [] => []
  | seq, p :: ps => frame1 seq p ++ framePackets ((seq + 1) % 256) ps

theorem readPacket_frame (st : ConnState) (p rest : List Nat)
    (hin : st.input = frame1 st.sequence p ++ rest)
    (hlen : p.length < 16777216) :
    readPacket st = (.ok p,
      { st with input := rest, sequence := (st.sequence + 1) % 256 }) := by
  have h4 : readExact 4 st = (.ok [p.length % 256, p.length / 256 % 256,
      p.length / 65536 % 256, st.sequence], { st with input := p ++ rest }) := by
    unfold readExact
    rw [hin]
    unfold frame1
    rw [if_pos (by simp)]
    simp
  unfold readPacket
  rw [h4]
  dsimp only [List.getD_cons_succ, List.getD_cons_zero]
  rw [if_neg (fun h => h rfl)]
  unfold readExact
  dsimp only
  have hrecon : p.length % 256 + 256 * (p.length / 256 % 256) +
      65536 * (p.length / 65536 % 256) = p.length := by omega
  rw [hrecon]
  rw [if_pos (by simp)]
  rw [List.take_left, List.drop_left]

theorem readRows_end {st : ConnState} {pkt : List Nat} {st1 : ConnState}
    {acc : List (List (List Nat))}
    (hrp : readPacket st = (.ok pkt, st1)) (hne : pkt ≠ [])
    (hfe : pkt.getD 0 0 = 0xfe) :
    readRows st acc = (.ok acc, st1) := by
  conv_lhs => rw [readRows.eq_def]
  split
  · next pkt' st1' heq =>
    rw [hrp] at heq
    injection heq with ha hb
    injection ha with ha
    subst ha hb
    rw [idx_ok_of_lt pkt 0 (List.length_pos.mpr hne)]
    dsimp only
    rw [if_pos hfe]
  · next e st1' heq =>
    rw [hrp] at heq
    injection heq with ha hb
    exact Outcome.noConfusion ha
  · next st1' heq =>
    rw [hrp] at heq
    injection heq with ha hb
    exact Outcome.noConfusion ha

theorem readRows_step {st : ConnState} {pkt : List Nat} {st1 : ConnState}
    {acc : List (List (List Nat))} {row : List (List Nat)}
    (hrp : readPacket st = (.ok pkt, st1)) (hne : pkt ≠ [])
    (hfe : pkt.getD 0 0 ≠ 0xfe) (hdec : ResultsetRow.decode pkt = .ok row) :
    readRows st acc = readRows st1 (acc ++ [row]) := by
  conv_lhs => rw [readRows.eq_def]
  split
  · next pkt' st1' heq =>
    rw [hrp] at heq
    injection heq with ha hb
    injection ha with ha
    subst ha hb
    rw [idx_ok_of_lt pkt 0 (List.length_pos.mpr hne)]
    dsimp only
    rw [if_neg hfe, hdec]
  · next e st1' heq =>
    rw [hrp] at heq
    injection heq with ha hb
    exact Outcome.noConfusion ha
  · next st1' heq =>
    rw [hrp] at heq
    injection heq with ha hb
    exact Outcome.noConfusion ha

theorem readCols_frame (cps : List (List Nat)) :
    ∀ (st : ConnState) (ps : List (List Nat)) (rest : List Nat),
    st.input = framePackets st.sequence (cps ++ ps) ++ rest →
    (∀ q ∈ cps, q.length < 16777216) →
    (∀ q ∈ cps, Outcome.isOk (ColumnDefinition41.decode q) = true) →
    ∃ cols st2, readCols cps.length st = (.ok cols, st2) ∧
      st2.input = framePackets st2.sequence ps ++ rest := by
  induction cps with
  | nil =>
    intro st ps rest hin _ _
    exact ⟨[], st, rfl, by simpa using hin⟩
  | cons c cs ih =>
    intro st ps rest hin hlen hok
    have hc : readPacket st = (.ok c, { st with
        input := framePackets ((st.sequence + 1) % 256) (cs ++ ps) ++ rest,
        sequence := (st.sequence + 1) % 256 }) := by
      apply readPacket_frame
      · rw [hin, show (c :: cs) ++ ps = c :: (cs ++ ps) from rfl, framePackets,
          List.append_assoc]
      · exact hlen c (by simp)
    obtain ⟨col, hcol⟩ : ∃ col, ColumnDefinition41.decode c = .ok col := by
      have hd := hok c (by simp)
      cases hdc : ColumnDefinition41.decode c
      · exact ⟨_, rfl⟩
      · rw [hdc] at hd; exact absurd hd (by simp [Outcome.isOk])
      · rw [hdc] at hd; exact absurd hd (by simp [Outcome.isOk])
    obtain ⟨cols, st2, hrec, hst2⟩ := ih { st with
        input := framePackets ((st.sequence + 1) % 256) (cs ++ ps) ++ rest,
        sequence := (st.sequence + 1) % 256 } ps rest rfl
      (fun q hq => hlen q (List.mem_cons_of_mem _ hq))
      (fun q hq => hok q (List.mem_cons_of_mem _ hq))
    refine ⟨col :: cols, st2, ?_, hst2⟩
    rw [show (c :: cs).length = cs.length + 1 from rfl]
    rw [readCols, hc]
    dsimp only
    rw [hcol]
    dsimp only
    rw [hrec]

theorem readRows_frame (rps : List (List Nat)) :
    ∀ (st : ConnState) (endP : List Nat) (rest : List Nat)
      (acc : List (List (List Nat))),
    st.input = framePackets st.sequence (rps ++ [endP]) ++ rest →
    (∀ q ∈ rps, q.length < 16777216) → endP.length < 16777216 →
    (∀ q ∈ rps, q ≠ [] ∧ q.getD 0 0 ≠ 0xfe ∧
      Outcome.isOk (ResultsetRow.decode q) = true) →
    endP ≠ [] → endP.getD 0 0 = 0xfe →
    (readRows st acc).1 = .ok (acc ++ rps.map fun q =>
      (ResultsetRow.decode q).getOkD []) := by
  induction rps with
  | nil =>
    intro st endP rest acc hin _ hel _ hene hefe
    have hrp : readPacket st = (.ok endP, { st with
        input := framePackets ((st.sequence + 1) % 256) [] ++ rest,
        sequence := (st.sequence + 1) % 256 }) := by
      apply readPacket_frame
      · rw [hin]
        simp [framePackets]
      · exact hel
    rw [readRows_end hrp hene hefe]
    simp
  | cons q qs ih =>
    intro st endP rest acc hin hlen hel hrows hene hefe
    have hq := hrows q (by simp)
    have hrp : readPacket st = (.ok q, { st with
        input := framePackets ((st.sequence + 1) % 256) (qs ++ [endP]) ++ rest,
        sequence := (st.sequence + 1) % 256 }) := by
      apply readPacket_frame
      · rw [hin, show (q :: qs) ++ [endP] = q :: (qs ++ [endP]) from rfl,
          framePackets, List.append_assoc]
      · exact hlen q (by simp)
    obtain ⟨row, hrow⟩ : ∃ row, ResultsetRow.decode q = .ok row := by
      have hd := hq.2.2
      cases hdc : ResultsetRow.decode q
      · exact ⟨_, rfl⟩
      · rw [hdc] at hd; exact absurd hd (by simp [Outcome.isOk])
      · rw [hdc] at hd; exact absurd hd (by simp [Outcome.isOk])
    rw [readRows_step hrp hq.1 hq.2.1 hrow]
    rw [ih { st with
        input := framePackets ((st.sequence + 1) % 256) (qs ++ [endP]) ++ rest,
        sequence := (st.sequence + 1) % 256 } endP rest (acc ++ [row]) rfl
      (fun q' hq' => hlen q' (List.mem_cons_of_mem _ hq')) hel
      (fun q' hq' => hrows q' (List.mem_cons_of_mem _ hq')) hene hefe]
    rw [List.map_cons, List.append_assoc]
    congr 2
    rw [hrow]
    rfl

/-- C5: in a query exchange, if the first response packet starts with 0xFF,
`query` decodes it as an `ErrPacket` and returns the formatted
`"ERROR <code> (<state>): <message>"` text rather than rows; otherwise the
first byte is taken as the column count `N`, exactly `N` column-definition
packets are read, then packets are decoded as result rows until one with a
0xFE header, at which point the accumulated rows are returned. -/
theorem claim_C5 (st : ConnState) (sql : List Nat) :
    (∀ (p rest : List Nat) (e : ErrPacket),
      st.input = frame1 1 p ++ rest → p.length < 16777216 → p ≠ [] →
      p.getD 0 0 = 0xff → ErrPacket.decode p = .ok e →
      (query st sql).1 = .ok (.errText (ErrPacket.human_readable_text e))) ∧
    (∀ (p0 endP rest : List Nat) (colPkts rowPkts : List (List Nat)),
      st.input = framePackets 1 (p0 :: (colPkts ++ rowPkts ++ [endP])) ++ rest →
      (∀ q ∈ p0 :: (colPkts ++ rowPkts ++ [endP]), q.length < 16777216) →
      p0 ≠ [] → p0.getD 0 0 ≠ 0xff → colPkts.length = p0.getD 0 0 →
      (∀ q ∈ colPkts, Outcome.isOk (ColumnDefinition41.decode q) = true) →
      (∀ q ∈ rowPkts, q ≠ [] ∧ q.getD 0 0 ≠ 0xfe ∧
        Outcome.isOk (ResultsetRow.decode q) = true) →
      endP ≠ [] → endP.getD 0 0 = 0xfe →
      (query st sql).1 = .ok (.rows (rowPkts.map fun q =>
        (ResultsetRow.decode q).getOkD []))) := by
  constructor
  · intro p rest e hin hplen hpne hp0 hdec
    have hW := readPacket_frame
      (writePacket (ComQuery.encode (ComQuery.new sql)) { st with sequence := 0 })
      p rest hin hplen
    unfold query
    rw [hW]
    dsimp only
    rw [idx_ok_of_lt p 0 (List.length_pos.mpr hpne)]
    dsimp only
    rw [if_pos hp0, hdec]
  · intro p0 endP rest colPkts rowPkts hin hlen hp0ne hp0ff hNcols hcols hrows
      hene hefe
    have hW := readPacket_frame
      (writePacket (ComQuery.encode (ComQuery.new sql)) { st with sequence := 0 })
      p0 (framePackets ((1 + 1) % 256) (colPkts ++ (rowPkts ++ [endP])) ++ rest)
      (by show st.input = frame1 1 p0 ++
            (framePackets ((1 + 1) % 256) (colPkts ++ (rowPkts ++ [endP])) ++ rest)
          rw [hin, framePackets, List.append_assoc, List.append_assoc])
      (hlen p0 (by simp))
    obtain ⟨cols, st2, hrec, hst2⟩ := readCols_frame colPkts
      { writePacket (ComQuery.encode (ComQuery.new sql)) { st with sequence := 0 }
          with
        input := framePackets ((1 + 1) % 256)
          (colPkts ++ (rowPkts ++ [endP])) ++ rest,
        sequence := ((writePacket (ComQuery.encode (ComQuery.new sql))
          { st with sequence := 0 }).sequence + 1) % 256 }
      (rowPkts ++ [endP]) rest rfl
      (fun q hq => hlen q (List.mem_cons_of_mem _
        (List.mem_append_left _ (List.mem_append_left _ hq))))
      hcols
    have hRR := readRows_frame rowPkts st2 endP rest [] hst2
      (fun q hq => hlen q (List.mem_cons_of_mem _
        (List.mem_append_left _ (List.mem_append_right _ hq))))
      (hlen endP (List.mem_cons_of_mem _ (List.mem_append_right _ (by simp))))
      hrows hene hefe
    unfold query
    rw [hW]
    dsimp only
    rw [idx_ok_of_lt p0 0 (List.length_pos.mpr hp0ne)]
    dsimp only
    rw [if_neg hp0ff, ← hNcols, hrec]
    dsimp only
    rcases hrr : readRows st2 [] with ⟨res, st3⟩
    rw [hrr] at hRR
    dsimp only at hRR
    rw [hRR]
    dsimp only
    simp

/-- Witness for C5: a server error packet yields the formatted error text;
a one-column, one-row exchange yields exactly that row. -/
theorem claim_C5_witness :
    (query ⟨frame1 1 [0xff, 0x28, 0x04, 35, 52, 50, 48, 48, 48, 98, 97, 100]
        ++ [], [], 0⟩ [120]).1 =
      .ok (.errText (ErrPacket.human_readable_text
        ⟨0xff, 0x0428, [35], [52, 50, 48, 48, 48], [98, 97, 100]⟩)) ∧
    (query ⟨framePackets 1 ([1] ::
        ([[0, 0, 0, 0, 0, 0, 1, 0, 0, 0, 0, 0, 0, 0, 0, 0, 0]] ++
         [[1, 65]] ++ [[0xfe]])) ++ [], [], 0⟩ [120]).1 =
      .ok (.rows ([[1, 65]].map fun q => (ResultsetRow.decode q).getOkD [])) := by
  have hrowdec : ResultsetRow.decode [1, 65] = .ok [[65]] := by
    unfold ResultsetRow.decode
    rw [resultsetRowLoop_step (by decide)
      (show decode_lenenc_string [1, 65] 0 = .ok ([65], 2) by decide)]
    rw [resultsetRowLoop_stop (by decide)]
    rfl
  constructor
  · exact (claim_C5 ⟨frame1 1
        [0xff, 0x28, 0x04, 35, 52, 50, 48, 48, 48, 98, 97, 100]
        ++ [], [], 0⟩ [120]).1
      [0xff, 0x28, 0x04, 35, 52, 50, 48, 48, 48, 98, 97, 100] []
      ⟨0xff, 0x0428, [35], [52, 50, 48, 48, 48], [98, 97, 100]⟩ rfl
      (by decide) (by decide) (by decide) (by decide)
  · refine (claim_C5 ⟨framePackets 1 ([1] ::
        ([[0, 0, 0, 0, 0, 0, 1, 0, 0, 0, 0, 0, 0, 0, 0, 0, 0]] ++
         [[1, 65]] ++ [[0xfe]])) ++ [], [], 0⟩ [120]).2
      [1] [0xfe] []
      [[0, 0, 0, 0, 0, 0, 1, 0, 0, 0, 0, 0, 0, 0, 0, 0, 0]] [[1, 65]] rfl
      (by decide) (by decide) (by decide) (by decide) (by decide) ?_
      (by decide) (by decide)
    intro q hq
    have hq1 : q = [1, 65] := by simpa using hq
    subst hq1
    exact ⟨by decide, by decide, by rw [hrowdec]; rfl⟩
